import Mathlib

/-!
Verification of the left-leaning red-black tree (2-3 tree encoding) from
`RedBlackTree.h`.  The C++ structure is a pointer machine: each `Node` owns
two child pointers, a non-owning parent pointer, a colour bit (`RED`), a
relation bit (`LESS`, "less than parent") and a key.  We embed it shallowly
as a heap: a list of optional node records indexed by allocation order
(`new` appends a slot, `delete` clears it), together with the root pointer
`m_root` and the counter `m_size`.  Keys are `Nat` and the configured
comparator `LessT = std::less` is `Nat` order.

Every C++ loop is modelled with explicit fuel (top-level wrappers pass
`nodes.length + 1`); `none` results model fuel exhaustion, a null-pointer
dereference, or a failed `assert` (the C++ asserts abort the program, so a
state that fires one has no defined result).  Each C++ statement is
transliterated as one read or one field write, in source order, sequenced
with the explicit `obind` combinator, so that the aliasing behaviour of the
pointer code is preserved exactly.
-/

namespace RBT

/-- One heap node: children, parent back-pointer, the two bits packed in
`m_type` (`RED`, `LESS`) and the key. -/
structure RBNode where
  left : Option Nat
  right : Option Nat
  parent : Option Nat
  red : Bool
  less : Bool
  key : Nat
deriving Repr, DecidableEq

/-- The tree object: the heap of allocated slots, `m_root` and `m_size`. -/
structure RBTree where
  nodes : List (Option RBNode)
  root : Option Nat
  size : Nat
deriving Repr, DecidableEq

/-- Failure-propagating sequencing (`none` = abort: null dereference,
failed assert, or fuel exhaustion). -/
def obind {a b : Type} (x : Option a) (f : a → Option b) : Option b :=
  match x with
  | none => none
  | some v => f v

/-- An `assert`: continue only when the condition holds. -/
def ocheck {a : Type} (b : Bool) (k : Option a) : Option a :=
  if b then k else none

/-- A default-constructed tree: no nodes, null root, size zero. -/
def emptyTree : RBTree := ⟨[], none, 0⟩

/-- Dereference node pointer `i` (none = null/dangling/freed). -/
def getN (t : RBTree) (i : Nat) : Option RBNode := t.nodes.getD i none

/-- Overwrite heap slot `i`. -/
def setSlot (t : RBTree) (i : Nat) (v : Option RBNode) : RBTree :=
  { t with nodes := t.nodes.set i v }

/-- `delete node`: the slot becomes dangling. -/
def freeSlot (t : RBTree) (i : Nat) : RBTree := setSlot t i none

/-- Read-modify-write of one live node (fails on a dangling pointer). -/
def updN (t : RBTree) (i : Nat) (f : RBNode → RBNode) : Option RBTree :=
  obind (getN t i) fun nd => some (setSlot t i (some (f nd)))

/-- `node->getLeftChild()`. -/
def rLeft (t : RBTree) (i : Nat) : Option (Option Nat) := (getN t i).map RBNode.left

/-- `node->getRightChild()`. -/
def rRight (t : RBTree) (i : Nat) : Option (Option Nat) := (getN t i).map RBNode.right

/-- `node->getParent()`. -/
def rParent (t : RBTree) (i : Nat) : Option (Option Nat) := (getN t i).map RBNode.parent

/-- `node->isRed()`. -/
def rRed (t : RBTree) (i : Nat) : Option Bool := (getN t i).map RBNode.red

/-- `node->isLessThanParent()`. -/
def rLess (t : RBTree) (i : Nat) : Option Bool := (getN t i).map RBNode.less

/-- `node->getKey()`. -/
def rKey (t : RBTree) (i : Nat) : Option Nat := (getN t i).map RBNode.key

/-- `node->setLeftChild(v)` (node-level: the pointer only). -/
def wLeft (t : RBTree) (i : Nat) (v : Option Nat) : Option RBTree :=
  updN t i fun nd => { nd with left := v }

/-- `node->setRightChild(v)` (node-level: the pointer only). -/
def wRight (t : RBTree) (i : Nat) (v : Option Nat) : Option RBTree :=
  updN t i fun nd => { nd with right := v }

/-- `node->setParent(v)`. -/
def wParent (t : RBTree) (i : Nat) (v : Option Nat) : Option RBTree :=
  updN t i fun nd => { nd with parent := v }

/-- `node->setRed(b)` / `setBlack(!b)`. -/
def wRed (t : RBTree) (i : Nat) (b : Bool) : Option RBTree :=
  updN t i fun nd => { nd with red := b }

/-- `node->setLessThanParent(b)` / `setGreaterThanParent(!b)`. -/
def wLess (t : RBTree) (i : Nat) (b : Bool) : Option RBTree :=
  updN t i fun nd => { nd with less := b }

/-- Fuel passed by the top-level wrappers: strictly more than the number of
heap slots, hence more than any simple path in an acyclic heap. -/
def fuelOf (t : RBTree) : Nat := t.nodes.length + 1

/-- The descent `while (node->getLeftChild()) node = node->getLeftChild()`
used by `Node::getNext` and `getNextLargestChild`. -/
def leftmostFrom (t : RBTree) : Nat → Nat → Option Nat
  | 0, _ => none
  | f + 1, i =>
    obind (getN t i) fun nd =>
    match nd.left with
    | none => some i
    | some j => leftmostFrom t f j

/-- The mirror descent to the rightmost node, used by `Node::getPrevious`. -/
def rightmostFrom (t : RBTree) : Nat → Nat → Option Nat
  | 0, _ => none
  | f + 1, i =>
    obind (getN t i) fun nd =>
    match nd.right with
    | none => some i
    | some j => rightmostFrom t f j

/-- The upward walk of `Node::getNext`: ascend while the current node is a
greater-than child; `self` is returned when the walk runs off the root. -/
def getNextUp (t : RBTree) (self : Nat) : Nat → Nat → Option Nat
  | 0, _ => none
  | f + 1, i =>
    obind (getN t i) fun nd =>
    match nd.parent with
    | none => some self
    | some p => if nd.less then some p else getNextUp t self f p

/-- The upward walk of `Node::getPrevious`: ascend while the current node is
a less-than child. -/
def getPrevUp (t : RBTree) (self : Nat) : Nat → Nat → Option Nat
  | 0, _ => none
  | f + 1, i =>
    obind (getN t i) fun nd =>
    match nd.parent with
    | none => some self
    | some p => if nd.less then getPrevUp t self f p else some p

/-- `Node::getNext`. -/
def getNext (t : RBTree) (i : Nat) : Option Nat :=
  obind (getN t i) fun nd =>
  match nd.right with
  | some j => leftmostFrom t (fuelOf t) j
  | none => getNextUp t i (fuelOf t) i

/-- `Node::getPrevious`. -/
def getPrevious (t : RBTree) (i : Nat) : Option Nat :=
  obind (getN t i) fun nd =>
  match nd.left with
  | some j => rightmostFrom t (fuelOf t) j
  | none => getPrevUp t i (fuelOf t) i

/-- Loop body of the public `find(key)`: binary-search descent. -/
def findFrom (t : RBTree) (key : Nat) : Nat → Nat → Option (Option Nat)
  | 0, _ => none
  | f + 1, i =>
    obind (getN t i) fun nd =>
    if key < nd.key then
      match nd.left with
      | none => some none
      | some j => findFrom t key f j
    else if nd.key < key then
      match nd.right with
      | none => some none
      | some j => findFrom t key f j
    else
      some (some i)

/-- `find(key)`: returns the handle, or null when the key is absent. -/
def find (t : RBTree) (key : Nat) : Option (Option Nat) :=
  match t.root with
  | none => some none
  | some r => findFrom t key (fuelOf t) r

/-- Loop of the private `find(key, nearest, lessThan)`: result is
`(found, nearest, lessThan)`. -/
def findNearestFrom (t : RBTree) (key : Nat) : Nat → Nat → Option (Bool × Nat × Bool)
  | 0, _ => none
  | f + 1, i =>
    obind (getN t i) fun nd =>
    if key < nd.key then
      match nd.left with
      | none => some (false, i, true)
      | some j => findNearestFrom t key f j
    else if nd.key < key then
      match nd.right with
      | none => some (false, i, false)
      | some j => findNearestFrom t key f j
    else
      some (true, i, true)

/-- Loop of the private `getNextLargestParent`: ascend from `node`, returning
the first parent reached through a less-than link, or null. -/
def nextLargestParentFrom (t : RBTree) : Nat → Nat → Option (Option Nat)
  | 0, _ => none
  | f + 1, i =>
    obind (getN t i) fun nd =>
    match nd.parent with
    | none => some none
    | some p => if nd.less then some (some p) else nextLargestParentFrom t f p

/-- `getNextLargestParent(node)`. -/
def getNextLargestParent (t : RBTree) (i : Nat) : Option (Option Nat) :=
  nextLargestParentFrom t (fuelOf t) i

/-- `getNextLargestChild(node)`: leftmost node of the right subtree, or
null when there is no right child. -/
def getNextLargestChild (t : RBTree) (i : Nat) : Option (Option Nat) :=
  obind (getN t i) fun nd =>
  match nd.right with
  | none => some none
  | some j => (leftmostFrom t (fuelOf t) j).map some

/-- `node->setChild(left, child)` (node-level): write the slot picked by the
boolean, nothing else. -/
def nodeSetChild (t : RBTree) (i : Nat) (leftSide : Bool) (c : Option Nat) : Option RBTree :=
  if leftSide then wLeft t i c else wRight t i c

/-- The `if (child != nullptr) child->setParent(p)` guard used by `swap`. -/
def setParentIf (t : RBTree) (c : Option Nat) (p : Option Nat) : Option RBTree :=
  match c with
  | none => some t
  | some x => wParent t x p

/-- The guarded pair `child->setParent(p); child->setLessThanParent(b)` used
by the tree-level child setters. -/
def attachIf (t : RBTree) (c : Option Nat) (p : Nat) (lessThan : Bool) : Option RBTree :=
  match c with
  | none => some t
  | some ci =>
    obind (wParent t ci (some p)) fun t =>
    wLess t ci lessThan

/-- The private tree-level `setChild(parent, child, lessThan)`: fixes the
child's back-pointer and relation bit before updating the slot. -/
def setChild (t : RBTree) (p : Nat) (c : Option Nat) (lessThan : Bool) : Option RBTree :=
  obind (attachIf t c p lessThan) fun t =>
  nodeSetChild t p lessThan c

/-- The private tree-level `setLeftChild(parent, child)`. -/
def setLeftChild (t : RBTree) (p : Nat) (c : Option Nat) : Option RBTree :=
  obind (attachIf t c p true) fun t =>
  wLeft t p c

/-- The private tree-level `setRightChild(parent, child)`. -/
def setRightChild (t : RBTree) (p : Nat) (c : Option Nat) : Option RBTree :=
  obind (attachIf t c p false) fun t =>
  wRight t p c

/-- `ptr != nullptr && ptr->isRed()` on an optional pointer. -/
def isRedPtr (t : RBTree) (c : Option Nat) : Option Bool :=
  match c with
  | none => some false
  | some ci => (getN t ci).map RBNode.red

/-- One step of `swap`'s parent fix-up:
`if (p) p->setChild(node->isLessThanParent(), target)`, the relation bit
being read from `node` at call time. -/
def swapFixParent (t : RBTree) (p : Option Nat) (node target : Nat) : Option RBTree :=
  match p with
  | none => some t
  | some x =>
    obind (rLess t node) fun fl =>
    nodeSetChild t x fl (some target)

/-- The private `swap(first, second)`: exchanges the structural identities of
two nodes pointer by pointer, then their colour and relation bits, in the
exact statement order of the source (the order is what makes the
adjacent-node case come out right). -/
def swapNodes (t : RBTree) (first second : Nat) : Option RBTree :=
  obind (rLeft t first) fun n1 =>
  obind (rLeft t second) fun n2 =>
  obind (setParentIf t n1 (some second)) fun t =>
  obind (setParentIf t n2 (some first)) fun t =>
  obind (wLeft t first n2) fun t =>
  obind (wLeft t second n1) fun t =>
  obind (rRight t first) fun m1 =>
  obind (rRight t second) fun m2 =>
  obind (setParentIf t m1 (some second)) fun t =>
  obind (setParentIf t m2 (some first)) fun t =>
  obind (wRight t first m2) fun t =>
  obind (wRight t second m1) fun t =>
  obind (rParent t first) fun p1 =>
  obind (rParent t second) fun p2 =>
  obind (swapFixParent t p1 first second) fun t =>
  obind (swapFixParent t p2 second first) fun t =>
  obind (wParent t first p2) fun t =>
  obind (wParent t second p1) fun t =>
  obind (rRed t first) fun fr =>
  obind (rRed t second) fun sr =>
  obind (wRed t first sr) fun t =>
  obind (wRed t second fr) fun t =>
  obind (rLess t first) fun fl =>
  obind (rLess t second) fun sl =>
  obind (wLess t first sl) fun t =>
  wLess t second fl

/-- `addTwoLeft`: the new node joins a black 2-node parent as its red left
child.  Terminal; returns `m_root`. -/
def addTwoLeft (t : RBTree) (i : Nat) : Option (RBTree × Nat) :=
  obind (getN t i) fun nd =>
  ocheck (!nd.red) <|
  ocheck nd.less <|
  obind nd.parent fun p =>
  obind (getN t p) fun pnd =>
  ocheck pnd.left.isNone <|
  ocheck (!pnd.red) <|
  obind (wLeft t p (some i)) fun t =>
  obind (wLess t i true) fun t =>
  obind (wRed t i true) fun t =>
  obind t.root fun r =>
  some (t, r)

/-- `addTwoRight`: the new node is the greater key of a forming 3-node; it
takes the parent's structural slot and the parent becomes its red left
child.  Terminal; returns `m_root`. -/
def addTwoRight (t : RBTree) (i : Nat) : Option (RBTree × Nat) :=
  obind (getN t i) fun nd =>
  ocheck (!nd.red) <|
  ocheck (!nd.less) <|
  obind nd.parent fun l =>
  obind (getN t l) fun lnd =>
  ocheck lnd.right.isNone <|
  ocheck (!lnd.red) <|
  obind (wRight t l nd.left) fun t =>
  obind (attachIf t nd.left l false) fun t =>
  obind (rParent t l) fun p =>
  obind (rLess t l) fun lessThan =>
  obind (match p with
    | none => some { t with root := some i }
    | some pp => nodeSetChild t pp lessThan (some i)) fun t =>
  obind (wParent t i p) fun t =>
  obind (wLess t i lessThan) fun t =>
  obind (wLeft t i (some l)) fun t =>
  obind (wParent t l (some i)) fun t =>
  obind (wLess t l true) fun t =>
  obind (wRed t l true) fun t =>
  obind t.root fun r =>
  some (t, r)

/-- `addThreeLeft`: the new node lands left of the red half of a 3-node; the
red middle node is promoted black into the grandparent's slot.  Terminal for
this subtree; returns the promoted middle. -/
def addThreeLeft (t : RBTree) (i : Nat) : Option (RBTree × Nat) :=
  obind (getN t i) fun nd =>
  ocheck (!nd.red) <|
  ocheck nd.less <|
  obind nd.parent fun m =>
  obind (getN t m) fun mnd =>
  ocheck mnd.left.isNone <|
  ocheck mnd.less <|
  ocheck mnd.red <|
  obind mnd.parent fun r =>
  obind (getN t r) fun rnd =>
  ocheck (!rnd.red) <|
  obind (match rnd.parent with
    | none => some { t with root := some m }
    | some pp => nodeSetChild t pp rnd.less none) fun t =>
  obind (wParent t m rnd.parent) fun t =>
  obind (wLess t m rnd.less) fun t =>
  obind (rRight t m) fun child =>
  obind (attachIf t child r true) fun t =>
  obind (wLeft t r child) fun t =>
  obind (wParent t r (some m)) fun t =>
  obind (wLess t r false) fun t =>
  obind (wRight t m (some r)) fun t =>
  obind (wLeft t m (some i)) fun t =>
  obind (wRed t m false) fun t =>
  some (t, m)

/-- `addThreeMiddle`: the new node lands between the red half of a 3-node and
its black half; the new node itself is promoted into the grandparent's slot
with the two halves as its children.  Terminal; returns the new node. -/
def addThreeMiddle (t : RBTree) (i : Nat) : Option (RBTree × Nat) :=
  obind (getN t i) fun nd =>
  ocheck (!nd.red) <|
  ocheck (!nd.less) <|
  obind nd.parent fun l =>
  obind (getN t l) fun lnd =>
  ocheck lnd.right.isNone <|
  ocheck lnd.less <|
  ocheck lnd.red <|
  obind lnd.parent fun r =>
  obind (getN t r) fun rnd =>
  ocheck (!rnd.red) <|
  obind (match rnd.parent with
    | none => some { t with root := some i }
    | some pp => nodeSetChild t pp rnd.less none) fun t =>
  obind (wParent t i rnd.parent) fun t =>
  obind (wLess t i rnd.less) fun t =>
  obind (rLeft t i) fun child =>
  obind (attachIf t child l false) fun t =>
  obind (wRight t l child) fun t =>
  obind (rRight t i) fun child2 =>
  obind (attachIf t child2 r true) fun t =>
  obind (wLeft t r child2) fun t =>
  obind (wLeft t i (some l)) fun t =>
  obind (wRight t i (some r)) fun t =>
  obind (wParent t l (some i)) fun t =>
  obind (wParent t r (some i)) fun t =>
  obind (wLess t l true) fun t =>
  obind (wLess t r false) fun t =>
  obind (wRed t l false) fun t =>
  some (t, i)

/-- `addThreeRight`: the new node lands right of a 3-node; the 3-node splits
by recolouring and its black half is detached from the grandparent to be
re-inserted one level up.  Propagating; returns the detached middle. -/
def addThreeRight (t : RBTree) (i : Nat) : Option (RBTree × Nat) :=
  obind (getN t i) fun nd =>
  ocheck (!nd.red) <|
  ocheck (!nd.less) <|
  obind nd.parent fun m =>
  obind (getN t m) fun mnd =>
  ocheck (!mnd.red) <|
  ocheck mnd.right.isNone <|
  obind mnd.left fun l =>
  obind (getN t l) fun lnd =>
  ocheck lnd.red <|
  ocheck lnd.less <|
  obind (wRed t l false) fun t =>
  obind (wRight t m (some i)) fun t =>
  obind (rParent t m) fun p =>
  obind (rLess t m) fun lessThan =>
  obind (match p with
    | none => some { t with root := some m }
    | some pp => nodeSetChild t pp lessThan none) fun t =>
  some (t, m)

/-- The private `Node * add(Node *)`: classifies the local topology around
the pending node and applies one of the five insertion transformations. -/
def addNode (t : RBTree) (i : Nat) : Option (RBTree × Nat) :=
  obind (getN t i) fun nd =>
  obind nd.parent fun tgt =>
  obind (getN t tgt) fun tnd =>
  if !tnd.red then
    if nd.less then addTwoLeft t i
    else
      obind (isRedPtr t tnd.left) fun lred =>
      if lred then addThreeRight t i else addTwoRight t i
  else
    if nd.less then addThreeLeft t i
    else addThreeMiddle t i

/-- The re-insertion walk `while (freeNode != m_root) freeNode = add(freeNode)`. -/
def addLoop (t : RBTree) : Nat → Nat → Option RBTree
  | 0, _ => none
  | f + 1, i =>
    if t.root = some i then some t
    else
      obind (addNode t i) fun tj =>
      addLoop tj.1 f tj.2

/-- The fields `new Node(key)` gives a fresh node once `add` has set its
parent pointer and relation bit: black, no children. -/
def newNode (key : Nat) (parent : Option Nat) (less : Bool) : RBNode :=
  { left := none, right := none, parent := parent, red := false, less := less, key := key }

/-- The public `bool add(KeyT const &, Node *&)`: result is the new tree,
the handle, and the `inserted` flag. -/
def addKey (t : RBTree) (key : Nat) : Option (RBTree × Nat × Bool) :=
  match t.root with
  | none =>
    let i := t.nodes.length
    some ({ nodes := t.nodes ++ [some (newNode key none false)], root := some i, size := 1 }, i, true)
  | some r =>
    obind (findNearestFrom t key (fuelOf t) r) fun res =>
    match res with
    | (true, nearest, _) => some (t, nearest, false)
    | (false, nearest, lessThan) =>
      let i := t.nodes.length
      let t1 : RBTree :=
        { t with nodes := t.nodes ++ [some (newNode key (some nearest) lessThan)],
                 size := t.size + 1 }
      obind (addLoop t1 (fuelOf t1) i) fun t2 =>
      some (t2, i, true)

/-- `remTwoLeft_Two`: black parent, deficiency left, black sibling that is a
2-node.  Merge: the sibling absorbs the parent and the deficiency moves up
(the removed node is reused as the moving placeholder when the parent is not
the root). -/
def remTwoLeft_Two (t : RBTree) (i : Nat) : Option (RBTree × Nat) :=
  obind (getN t i) fun nd =>
  obind nd.parent fun a =>
  obind (getN t a) fun na =>
  ocheck (!na.red) <|
  obind na.right fun b =>
  obind (getN t b) fun nb =>
  ocheck (!nb.red) <|
  obind (rLeft t i) fun nl =>
  obind (setLeftChild t a nl) fun t =>
  obind (rLeft t b) fun bl =>
  obind (setRightChild t a bl) fun t =>
  obind (setLeftChild t b (some a)) fun t =>
  obind (wRed t a true) fun t =>
  match na.parent with
  | some xi =>
    obind (wLeft t i (some b)) fun t =>
    obind (wParent t i (some xi)) fun t =>
    obind (wLess t i na.less) fun t =>
    some (t, i)
  | none =>
    obind (wParent t b none) fun t =>
    obind (some { t with root := some b }) fun t =>
    obind (freeSlot t i).root fun r =>
    some (freeSlot t i, r)

/-- `remTwoLeft_Three`: black parent, deficiency left, black sibling whose
left nephew is red (a 3-node).  Borrow: rotate the red nephew up.  Terminal. -/
def remTwoLeft_Three (t : RBTree) (i : Nat) : Option (RBTree × Nat) :=
  obind (getN t i) fun nd =>
  obind nd.parent fun a =>
  obind (getN t a) fun na =>
  ocheck (!na.red) <|
  obind na.right fun c =>
  obind (getN t c) fun nc =>
  ocheck (!nc.red) <|
  obind nc.left fun b =>
  obind (getN t b) fun nb =>
  ocheck nb.red <|
  obind (rLeft t i) fun nl =>
  obind (setLeftChild t a nl) fun t =>
  obind (rLeft t b) fun bl =>
  obind (setRightChild t a bl) fun t =>
  obind (rRight t b) fun br =>
  obind (setLeftChild t c br) fun t =>
  obind (setLeftChild t b (some a)) fun t =>
  obind (setRightChild t b (some c)) fun t =>
  obind (wRed t b false) fun t =>
  obind (match na.parent with
    | some xi => setChild t xi (some b) na.less
    | none =>
      obind (wParent t b none) fun t =>
      some { t with root := some b }) fun t =>
  obind (freeSlot t i).root fun r =>
  some (freeSlot t i, r)

/-- `remTwoLeft`: dispatch on the left nephew's colour. -/
def remTwoLeft (t : RBTree) (i : Nat) : Option (RBTree × Nat) :=
  obind (rParent t i) fun p =>
  obind p fun p =>
  obind (rRight t p) fun sib =>
  obind sib fun sib =>
  obind (rLeft t sib) fun nephew =>
  obind (isRedPtr t nephew) fun nred =>
  if nred then remTwoLeft_Three t i else remTwoLeft_Two t i

/-- `remTwoRight_Two`: black parent, deficiency right, 2-node sibling.
Merge; the removed node is reused as the moving placeholder unless the
parent is the root. -/
def remTwoRight_Two (t : RBTree) (i : Nat) : Option (RBTree × Nat) :=
  obind (getN t i) fun nd =>
  obind nd.parent fun a =>
  obind (getN t a) fun na =>
  ocheck (!na.red) <|
  obind na.left fun b =>
  obind (getN t b) fun nb =>
  ocheck (!nb.red) <|
  obind (rLeft t i) fun nl =>
  obind (setRightChild t a nl) fun t =>
  obind (wRed t b true) fun t =>
  match na.parent with
  | some xi =>
    obind (wLeft t i (some a)) fun t =>
    obind (wParent t i (some xi)) fun t =>
    obind (wLess t i na.less) fun t =>
    some (t, i)
  | none =>
    obind (wParent t a none) fun t =>
    obind (some { t with root := some a }) fun t =>
    obind (freeSlot t i).root fun r =>
    some (freeSlot t i, r)

/-- `remTwoRight_Three`: black parent, deficiency right, sibling is a
3-node.  Borrow.  Terminal. -/
def remTwoRight_Three (t : RBTree) (i : Nat) : Option (RBTree × Nat) :=
  obind (getN t i) fun nd =>
  obind nd.parent fun a =>
  obind (getN t a) fun na =>
  ocheck (!na.red) <|
  obind na.left fun c =>
  obind (getN t c) fun nc =>
  ocheck (!nc.red) <|
  obind nc.left fun b =>
  obind (getN t b) fun nb =>
  ocheck nb.red <|
  obind (rLeft t i) fun nl =>
  obind (setRightChild t a nl) fun t =>
  obind (rRight t c) fun cr =>
  obind (setLeftChild t a cr) fun t =>
  obind (setRightChild t c (some a)) fun t =>
  obind (wRed t b false) fun t =>
  obind (match na.parent with
    | some xi => setChild t xi (some c) na.less
    | none =>
      obind (wParent t c none) fun t =>
      some { t with root := some c }) fun t =>
  obind (freeSlot t i).root fun r =>
  some (freeSlot t i, r)

/-- `remTwoRight`: dispatch on the left nephew's colour. -/
def remTwoRight (t : RBTree) (i : Nat) : Option (RBTree × Nat) :=
  obind (rParent t i) fun p =>
  obind p fun p =>
  obind (rLeft t p) fun sib =>
  obind sib fun sib =>
  obind (rLeft t sib) fun nephew =>
  obind (isRedPtr t nephew) fun nred =>
  if nred then remTwoRight_Three t i else remTwoRight_Two t i

/-- `remThreeLeft_Two_X`: red parent (left half of a 3-node), deficiency on
its left, middle sibling a 2-node.  The red link is consumed.  Terminal. -/
def remThreeLeft_Two_X (t : RBTree) (i : Nat) : Option (RBTree × Nat) :=
  obind (getN t i) fun nd =>
  obind nd.parent fun a =>
  obind (getN t a) fun na =>
  ocheck na.red <|
  obind na.parent fun b =>
  obind (getN t b) fun nb =>
  ocheck (!nb.red) <|
  obind na.right fun c =>
  obind (getN t c) fun nc =>
  ocheck (!nc.red) <|
  obind (rLeft t i) fun nl =>
  obind (setLeftChild t a nl) fun t =>
  obind (rLeft t c) fun cl =>
  obind (setRightChild t a cl) fun t =>
  obind (setLeftChild t c (some a)) fun t =>
  obind (setLeftChild t b (some c)) fun t =>
  obind (freeSlot t i).root fun r =>
  some (freeSlot t i, r)

/-- `remThreeLeft_Three_X`: red parent, deficiency on its left, middle
sibling a 3-node.  Borrow through the red link.  Terminal. -/
def remThreeLeft_Three_X (t : RBTree) (i : Nat) : Option (RBTree × Nat) :=
  obind (getN t i) fun nd =>
  obind nd.parent fun a =>
  obind (getN t a) fun na =>
  ocheck na.red <|
  obind na.parent fun b =>
  obind (getN t b) fun nb =>
  ocheck (!nb.red) <|
  obind na.right fun d =>
  obind (getN t d) fun ndd =>
  ocheck (!ndd.red) <|
  obind ndd.left fun c =>
  obind (getN t c) fun nc =>
  ocheck nc.red <|
  obind (rLeft t i) fun nl =>
  obind (setLeftChild t a nl) fun t =>
  obind (rLeft t c) fun cl =>
  obind (setRightChild t a cl) fun t =>
  obind (rRight t c) fun cr =>
  obind (setLeftChild t d cr) fun t =>
  obind (setLeftChild t c (some a)) fun t =>
  obind (setRightChild t c (some d)) fun t =>
  obind (setLeftChild t b (some c)) fun t =>
  obind (wRed t a false) fun t =>
  obind (freeSlot t i).root fun r =>
  some (freeSlot t i, r)

/-- `remThreeLeft`: dispatch on the middle sibling's left child colour. -/
def remThreeLeft (t : RBTree) (i : Nat) : Option (RBTree × Nat) :=
  obind (rParent t i) fun a =>
  obind a fun a =>
  obind (getN t a) fun na =>
  ocheck na.red <|
  obind na.right fun d =>
  obind (getN t d) fun ndd =>
  ocheck (!ndd.red) <|
  obind (isRedPtr t ndd.left) fun cred =>
  if cred then remThreeLeft_Three_X t i else remThreeLeft_Two_X t i

/-- `remThreeMiddle_Two_X`: red parent, deficiency on its right, left
sibling a 2-node.  Recolour only.  Terminal. -/
def remThreeMiddle_Two_X (t : RBTree) (i : Nat) : Option (RBTree × Nat) :=
  obind (getN t i) fun nd =>
  obind nd.parent fun a =>
  obind (getN t a) fun na =>
  ocheck na.red <|
  obind na.parent fun b =>
  obind (getN t b) fun nb =>
  ocheck (!nb.red) <|
  obind na.left fun c =>
  obind (getN t c) fun nc =>
  ocheck (!nc.red) <|
  obind (rLeft t i) fun nl =>
  obind (setRightChild t a nl) fun t =>
  obind (wRed t a false) fun t =>
  obind (wRed t c true) fun t =>
  obind (freeSlot t i).root fun r =>
  some (freeSlot t i, r)

/-- `remThreeMiddle_Three_X`: red parent, deficiency on its right, left
sibling a 3-node.  Borrow.  Terminal. -/
def remThreeMiddle_Three_X (t : RBTree) (i : Nat) : Option (RBTree × Nat) :=
  obind (getN t i) fun nd =>
  obind nd.parent fun a =>
  obind (getN t a) fun na =>
  ocheck na.red <|
  obind na.parent fun b =>
  obind (getN t b) fun nb =>
  ocheck (!nb.red) <|
  obind na.left fun d =>
  obind (getN t d) fun ndd =>
  ocheck (!ndd.red) <|
  obind ndd.left fun c =>
  obind (getN t c) fun nc =>
  ocheck nc.red <|
  obind (rRight t d) fun dr =>
  obind (setLeftChild t a dr) fun t =>
  obind (rLeft t i) fun nl =>
  obind (setRightChild t a nl) fun t =>
  obind (setRightChild t d (some a)) fun t =>
  obind (setLeftChild t b (some d)) fun t =>
  obind (wRed t a false) fun t =>
  obind (wRed t c false) fun t =>
  obind (wRed t d true) fun t =>
  obind (freeSlot t i).root fun r =>
  some (freeSlot t i, r)

/-- `remThreeMiddle`: dispatch on the left sibling's left child colour. -/
def remThreeMiddle (t : RBTree) (i : Nat) : Option (RBTree × Nat) :=
  obind (rParent t i) fun a =>
  obind a fun a =>
  obind (getN t a) fun na =>
  ocheck na.red <|
  obind na.left fun d =>
  obind (getN t d) fun ndd =>
  ocheck (!ndd.red) <|
  obind (isRedPtr t ndd.left) fun cred =>
  if cred then remThreeMiddle_Three_X t i else remThreeMiddle_Two_X t i

/-- `remThreeRight_X_Two`: black parent whose left child is red (the node is
right of a 3-node), middle sibling a 2-node.  Rotate the red node up.
Terminal. -/
def remThreeRight_X_Two (t : RBTree) (i : Nat) : Option (RBTree × Nat) :=
  obind (getN t i) fun nd =>
  obind nd.parent fun b =>
  obind (getN t b) fun nb =>
  ocheck (!nb.red) <|
  obind nb.left fun a =>
  obind (getN t a) fun na =>
  ocheck na.red <|
  obind na.right fun c =>
  obind (getN t c) fun nc =>
  ocheck (!nc.red) <|
  obind (isRedPtr t nc.left) fun clred =>
  ocheck (!clred) <|
  obind (setLeftChild t b (some c)) fun t =>
  obind (rLeft t i) fun nl =>
  obind (setRightChild t b nl) fun t =>
  obind (setRightChild t a (some b)) fun t =>
  obind (wRed t a false) fun t =>
  obind (wRed t c true) fun t =>
  obind (match nb.parent with
    | some xi => setChild t xi (some a) nb.less
    | none =>
      obind (wParent t a none) fun t =>
      some { t with root := some a }) fun t =>
  obind (freeSlot t i).root fun r =>
  some (freeSlot t i, r)

/-- `remThreeRight_X_Three`: black parent with red left child, middle
sibling a 3-node.  Borrow.  Terminal. -/
def remThreeRight_X_Three (t : RBTree) (i : Nat) : Option (RBTree × Nat) :=
  obind (getN t i) fun nd =>
  obind nd.parent fun b =>
  obind (getN t b) fun nb =>
  ocheck (!nb.red) <|
  obind nb.left fun a =>
  obind (getN t a) fun na =>
  ocheck na.red <|
  obind na.right fun d =>
  obind (getN t d) fun ndd =>
  ocheck (!ndd.red) <|
  obind ndd.left fun c =>
  obind (getN t c) fun nc =>
  ocheck nc.red <|
  obind (rRight t d) fun dr =>
  obind (setLeftChild t b dr) fun t =>
  obind (rLeft t i) fun nl =>
  obind (setRightChild t b nl) fun t =>
  obind (setRightChild t a (some c)) fun t =>
  obind (setLeftChild t d (some a)) fun t =>
  obind (setRightChild t d (some b)) fun t =>
  obind (wRed t c false) fun t =>
  obind (match nb.parent with
    | some xi => setChild t xi (some d) nb.less
    | none =>
      obind (wParent t d none) fun t =>
      some { t with root := some d }) fun t =>
  obind (freeSlot t i).root fun r =>
  some (freeSlot t i, r)

/-- `remThreeRight`: dispatch on the middle sibling's left child colour. -/
def remThreeRight (t : RBTree) (i : Nat) : Option (RBTree × Nat) :=
  obind (rParent t i) fun b =>
  obind b fun b =>
  obind (getN t b) fun nb =>
  ocheck (!nb.red) <|
  obind nb.left fun a =>
  obind (getN t a) fun na =>
  ocheck na.red <|
  obind na.right fun f =>
  obind (getN t f) fun nf =>
  ocheck (!nf.red) <|
  obind (isRedPtr t nf.left) fun ered =>
  if ered then remThreeRight_X_Three t i else remThreeRight_X_Two t i

/-- The private `Node * rem(Node *)`: classifies the local topology around
the deficient position and applies the matching transformation. -/
def remNode (t : RBTree) (i : Nat) : Option (RBTree × Nat) :=
  obind (getN t i) fun nd =>
  obind nd.parent fun p =>
  obind (getN t p) fun pnd =>
  if !pnd.red then
    if nd.less then remTwoLeft t i
    else
      obind (isRedPtr t pnd.left) fun lred =>
      if lred then remThreeRight t i else remTwoRight t i
  else if nd.less then remThreeLeft t i
  else remThreeMiddle t i

/-- The rebalancing walk `while (node != m_root) node = rem(node)`. -/
def remLoop (t : RBTree) : Nat → Nat → Option RBTree
  | 0, _ => none
  | f + 1, i =>
    if t.root = some i then some t
    else
      obind (remNode t i) fun tj =>
      remLoop tj.1 f tj.2

/-- The public `bool remove(Node *, Node *&)` (always returns true): result
is the new tree and the `next` out-parameter. -/
def removeNode (t : RBTree) (i : Nat) : Option (RBTree × Option Nat) :=
  let t := { t with size := t.size - 1 }
  obind (getNextLargestChild t i) fun nlc =>
  obind (match nlc with
    | none => some t
    | some s =>
      obind (swapNodes t i s) fun t =>
      some (if t.root = some i then { t with root := some s } else t)) fun t =>
  obind (getN t i) fun nd =>
  match nd.parent with
  | some p =>
    obind (if nd.less then some (some p) else getNextLargestParent t p) fun next =>
    if !nd.red then
      obind (isRedPtr t nd.left) fun lred =>
      if lred then
        obind nd.left fun l =>
        obind (getN t l) fun lnd =>
        ocheck lnd.left.isNone <|
        obind (setChild t p (some l) nd.less) fun t =>
        obind (wRed t l false) fun t =>
        some (freeSlot t i, next)
      else
        ocheck (!(t.root = some i)) <|
        obind (remLoop t (fuelOf t) i) fun t =>
        some (t, next)
    else
      ocheck nd.left.isNone <|
      obind (wLeft t p none) fun t =>
      some (freeSlot t i, next)
  | none =>
    ocheck (!nd.red) <|
    obind (isRedPtr t nd.left) fun lred =>
    obind (if lred then
        obind nd.left fun l =>
        ocheck (t.size = 1) <|
        obind (wParent t l none) fun t =>
        wRed t l false
      else some t) fun t =>
    some (freeSlot { t with root := nd.left } i, nlc)

/-- The public `bool remove(KeyT const &, Node *&)`: false with no mutation
when the key is absent. -/
def removeKey (t : RBTree) (key : Nat) : Option (RBTree × Bool × Option Nat) :=
  obind (find t key) fun fo =>
  match fo with
  | none => some (t, false, none)
  | some i =>
    obind (removeNode t i) fun tn =>
    some (tn.1, true, tn.2)

/-- The descent to the smallest node in `validate`:
`while (node != next) do node = next; next = node->getPrevious()`. -/
def minLoop (t : RBTree) : Nat → Nat → Nat → Option Nat
  | 0, _, _ => none
  | f + 1, node, next =>
    if node = next then some node
    else
      obind (getPrevious t next) fun nx =>
      minLoop t f next nx

/-- The ordering-against-parent check of `validate`'s loop body. -/
def checkOrder (t : RBTree) (nd : RBNode) : Option Bool :=
  match nd.parent with
  | none => some true
  | some p =>
    obind (rKey t p) fun pk =>
    if nd.less then some (decide (nd.key < pk)) else some (!decide (nd.key < pk))

/-- The red-node checks of `validate`'s loop body: a red node needs a black
parent and must be its less-than child with a smaller key. -/
def checkRed (t : RBTree) (nd : RBNode) : Option Bool :=
  if nd.red then
    match nd.parent with
    | none => some false
    | some p =>
      obind (getN t p) fun pnd =>
      if pnd.red then some false
      else if !nd.less then some false
      else some (decide (nd.key < pnd.key))
  else some true

/-- The local-shape checks of `validate`'s loop body: a red left child next
to a right child must have both children, a black left child requires a
right sibling, and a right child requires a left one. -/
def checkShape (t : RBTree) (nd : RBNode) : Option Bool :=
  obind (match nd.left with
    | none => some true
    | some l =>
      obind (getN t l) fun lnd =>
      if lnd.red then
        match nd.right with
        | none => some true
        | some _ =>
          if lnd.left.isNone then some false
          else if lnd.right.isNone then some false
          else some true
      else
        match nd.right with
        | none => some false
        | some _ => some true) fun r3 =>
  if !r3 then some false
  else
    match nd.right, nd.left with
    | some _, none => some false
    | _, _ => some true

/-- The full per-node body of `validate`'s main loop. -/
def checkNode (t : RBTree) (i : Nat) : Option Bool :=
  obind (getN t i) fun nd =>
  obind (checkOrder t nd) fun r1 =>
  if !r1 then some false
  else
    obind (checkRed t nd) fun r2 =>
    if !r2 then some false
    else checkShape t nd

/-- The main loop of `validate`: check each node, stopping when `getNext`
returns the node itself (so the last node is never checked). -/
def validateLoop (t : RBTree) : Nat → Nat → Nat → Option Bool
  | 0, _, _ => none
  | f + 1, node, next =>
    if node = next then some true
    else
      obind (checkNode t node) fun c =>
      if !c then some false
      else
        obind (getNext t next) fun nx =>
        validateLoop t f next nx

/-- The public `bool validate()`. -/
def validate (t : RBTree) : Option Bool :=
  match t.root with
  | none => some true
  | some r =>
    obind (getN t r) fun rnd =>
    if rnd.red then some false
    else
      obind (getPrevious t r) fun p0 =>
      obind (minLoop t (fuelOf t) r p0) fun m =>
      obind (getNext t m) fun n0 =>
      validateLoop t (fuelOf t) m n0

/-- The list of nodes `validate`'s main loop applies its checks to, in visit
order (the same iteration, with the checks stripped out). -/
def chainList (t : RBTree) : Nat → Nat → Nat → Option (List Nat)
  | 0, _, _ => none
  | f + 1, node, next =>
    if node = next then some []
    else
      obind (getNext t next) fun nx =>
      obind (chainList t f next nx) fun rest =>
      some (node :: rest)

/-- The nodes visited (checked) by `validate`. -/
def validateVisited (t : RBTree) : Option (List Nat) :=
  match t.root with
  | none => some []
  | some r =>
    obind (getPrevious t r) fun p0 =>
    obind (minLoop t (fuelOf t) r p0) fun m =>
    obind (getNext t m) fun n0 =>
    chainList t (fuelOf t) m n0

/-- Key collection by repeated `getNext` from a node until it returns the
node itself (the documented full-traversal idiom). -/
def traverseKeys (t : RBTree) : Nat → Nat → Option (List Nat)
  | 0, _ => none
  | f + 1, i =>
    obind (rKey t i) fun k =>
    obind (getNext t i) fun nx =>
    if nx = i then some [k]
    else
      obind (traverseKeys t f nx) fun rest =>
      some (k :: rest)

/-- In-order key sequence: descend to the leftmost node, then iterate the
successor operation to exhaustion. -/
def inorderKeys (t : RBTree) : Option (List Nat) :=
  match t.root with
  | none => some []
  | some r =>
    obind (leftmostFrom t (fuelOf t) r) fun m =>
    traverseKeys t (fuelOf t) m

/-- Indices of live (allocated and not freed) heap slots. -/
def liveIdx (t : RBTree) : List Nat :=
  (List.range t.nodes.length).filter fun i => (getN t i).isSome

/-- The per-node structural invariants named by the claim: a RED node is the
less-than child of a BLACK parent, and the relation bit of every non-root
node agrees with the key order against its parent. -/
def invNode (t : RBTree) (i : Nat) : Bool :=
  match getN t i with
  | none => true
  | some nd =>
    (if nd.red then
       match nd.parent with
       | none => false
       | some p =>
         nd.less && (match getN t p with
           | some pnd => !pnd.red
           | none => false)
     else true)
    &&
    (match nd.parent with
     | none => true
     | some p =>
       match getN t p with
       | none => false
       | some pnd => if nd.less then decide (nd.key < pnd.key) else decide (pnd.key < nd.key))

/-- The structural invariants of the claim, over the whole heap: root (if
present) BLACK, the per-node red/relation invariants, and `size` equal to
the number of live nodes. -/
def structuralInv (t : RBTree) : Bool :=
  (match t.root with
   | none => true
   | some r =>
     match getN t r with
     | some rnd => !rnd.red
     | none => false)
  && (liveIdx t).all (invNode t)
  && decide (t.size = (liveIdx t).length)

/-- A public mutating call: `add(key)` or `remove(key)`. -/
inductive Op where
  | addK : Nat → Op
  | remK : Nat → Op
deriving Repr, DecidableEq

/-- Apply one public mutating call, keeping only the tree. -/
def applyOp (t : RBTree) (op : Op) : Option RBTree :=
  match op with
  | .addK k => (addKey t k).map (·.1)
  | .remK k => (removeKey t k).map (·.1)

/-- Run a sequence of public mutating calls from a starting tree. -/
def runOps (t : RBTree) : List Op → Option RBTree
  | [] => some t
  | op :: rest =>
    obind (applyOp t op) fun t2 =>
    runOps t2 rest

/-- The pointer structure of a well-formed tree, abstracted as a binary tree
of node indices.  Used to state which heaps are actual trees (no cycles, no
sharing) when reasoning about the navigation routines. -/
inductive Shape where
  | leaf : Shape
  | node : Nat → Shape → Shape → Shape
deriving Repr, DecidableEq

/-- The index at the root of a shape, as the pointer value a parent stores. -/
def Shape.rootId : Shape → Option Nat
  | .leaf => none
  | .node i _ _ => some i

/-- All indices of a shape, in symmetric (in-order) order. -/
def Shape.ids : Shape → List Nat
  | .leaf => []
  | .node i l r => l.ids ++ i :: r.ids

/-- The key stored at slot `i` (0 for a dead slot; only used at live ones). -/
def kOf (t : RBTree) (i : Nat) : Nat := ((getN t i).map RBNode.key).getD 0

/-- The heap `t` realises the shape exactly below context `pinfo`
(= `some (parent index, relation bit)`, or `none` at the root): every shape
node is live, and its parent pointer, relation bit and child pointers match
the shape. -/
def structOk (t : RBTree) : Shape → Option (Nat × Bool) → Bool
  | .leaf, _ => true
  | .node i l r, pinfo =>
    match getN t i with
    | none => false
    | some nd =>
      nd.parent = pinfo.map Prod.fst
      && (match pinfo with
          | none => true
          | some pb => nd.less = pb.2)
      && nd.left = l.rootId
      && nd.right = r.rootId
      && structOk t l (some (i, true))
      && structOk t r (some (i, false))

/-- The heap `t` is a well-formed search tree with shape `sh`: the pointer
graph realises `sh` from the root, indices are not shared, and the in-order
key sequence is strictly increasing (the binary-search-tree property under
the configured `std::less` order). -/
def ValidShape (t : RBTree) (sh : Shape) : Prop :=
  structOk t sh none = true ∧ t.root = sh.rootId ∧ sh.ids.Nodup ∧
    List.Chain' (· < ·) (sh.ids.map (kOf t))

/-- Chain statement for the successor walk: along the list, `getNext` maps
each element to the following one; the last element maps to the exit `ex`,
or to itself when there is no exit. -/
def NextChain (t : RBTree) : List Nat → Option Nat → Prop
  | [], _ => True
  | a :: rest, ex =>
    getNext t a = some ((rest.head?).getD (ex.getD a)) ∧ NextChain t rest ex

/-- Chain statement for `getNextLargestParent`: along the list, a node with
no right child ascends to the following element, or to the exit (null when
none). -/
def NlpChain (t : RBTree) : List Nat → Option Nat → Prop
  | [], _ => True
  | a :: rest, ex =>
    (rRight t a = some none →
      nextLargestParentFrom t (fuelOf t) a = some (match rest.head? with
        | some b => some b
        | none => ex)) ∧ NlpChain t rest ex

/-- Chain statement for the predecessor walk, over the list in descending
order. -/
def PrevChain (t : RBTree) : List Nat → Option Nat → Prop
  | [], _ => True
  | a :: rest, ex =>
    getPrevious t a = some ((rest.head?).getD (ex.getD a)) ∧ PrevChain t rest ex

/-- The upward walks, started at `i` with enough fuel, reach the stated
exit: `getNextUp` returns the exit or the walker's `self` when there is
none, `getNextLargestParent`'s loop returns the exit itself. -/
def ClimbOk (t : RBTree) (i : Nat) (ex : Option Nat) (b : Nat) : Prop :=
  (∀ self f, b ≤ f → getNextUp t self f i = some (ex.getD self)) ∧
  (∀ f, b ≤ f → nextLargestParentFrom t f i = some ex)

/-- What the context above a subtree guarantees about ascending out of it
towards a successor: nothing above at the root (exit null), the parent when
the subtree hangs on a less-than link, and otherwise the parent's own climb. -/
def ExitOk (t : RBTree) (pinfo : Option (Nat × Bool)) (ex : Option Nat) (d : Nat) : Prop :=
  match pinfo with
  | none => ex = none
  | some (par, true) => ex = some par
  | some (par, false) => ClimbOk t par ex d

/-- The mirror climb for the predecessor walk. -/
def PrevClimbOk (t : RBTree) (i : Nat) (ex : Option Nat) (b : Nat) : Prop :=
  ∀ self f, b ≤ f → getPrevUp t self f i = some (ex.getD self)

/-- The mirror context guarantee for ascending towards a predecessor. -/
def PrevExitOk (t : RBTree) (pinfo : Option (Nat × Bool)) (ex : Option Nat) (d : Nat) : Prop :=
  match pinfo with
  | none => ex = none
  | some (par, false) => ex = some par
  | some (par, true) => PrevClimbOk t par ex d

/-- A four-node fixture: root 20 with black left child 10 carrying a red
left child 5, and leaf 25 — the smallest tree exercising the promote case of
`remove` on a black node with a red left child. -/
def promoteCase : RBTree :=
  ⟨[some ⟨some 1, some 3, none, false, false, 20⟩,
    some ⟨some 2, none, some 0, false, true, 10⟩,
    some ⟨none, none, some 1, true, true, 5⟩,
    some ⟨none, none, some 0, false, false, 25⟩], some 0, 4⟩

/-- The tree built by inserting 7, 2, 6, 3, 4, 5, 1 into an empty tree, in
that order: its root (key 6) has a RED left child (key 3) and a right child
(key 7) with no left child. -/
def validateGapTree : RBTree :=
  ⟨[some ⟨none, none, some 2, false, false, 7⟩,
    some ⟨some 6, none, some 3, false, true, 2⟩,
    some ⟨some 3, some 0, none, false, false, 6⟩,
    some ⟨some 1, some 5, some 2, true, true, 3⟩,
    some ⟨none, none, some 5, true, true, 4⟩,
    some ⟨some 4, none, some 3, false, false, 5⟩,
    some ⟨none, none, some 1, true, true, 1⟩], some 2, 7⟩

theorem obind_some_eq {a b : Type} (v : a) (f : a → Option b) : obind (some v) f = f v := rfl

theorem obind_none_eq {a b : Type} (f : a → Option b) : obind (none : Option a) f = none := rfl

theorem obind_eq_some {a b : Type} {x : Option a} {f : a → Option b} {w : b}
    (h : obind x f = some w) : ∃ v, x = some v ∧ f v = some w := by
  cases x with
  | none => exact absurd h (by simp [obind])
  | some v => exact ⟨v, rfl, h⟩

theorem ocheck_true_eq {a : Type} (k : Option a) : ocheck true k = k := rfl

theorem ocheck_false_eq {a : Type} (k : Option a) : ocheck false k = none := rfl

theorem getN_some_lt {t : RBTree} {i : Nat} {nd : RBNode} (h : getN t i = some nd) :
    i < t.nodes.length := by
  by_contra hc
  rw [getN, List.getD_eq_getElem?_getD, List.getElem?_eq_none (by omega)] at h
  exact absurd h (by simp)

theorem getN_setSlot_self {t : RBTree} {i : Nat} (h : i < t.nodes.length) (v : Option RBNode) :
    getN (setSlot t i v) i = v := by
  rw [getN, setSlot]
  show (t.nodes.set i v).getD i none = v
  rw [List.getD_eq_getElem?_getD, List.getElem?_set_self (by simpa using h)]
  rfl

theorem getN_setSlot_ne (t : RBTree) {i j : Nat} (h : j ≠ i) (v : Option RBNode) :
    getN (setSlot t i v) j = getN t j := by
  rw [getN, setSlot]
  show (t.nodes.set i v).getD j none = _
  rw [List.getD_eq_getElem?_getD, List.getElem?_set_ne (by omega), ← List.getD_eq_getElem?_getD]
  rfl

theorem setSlot_root (t : RBTree) (i : Nat) (v : Option RBNode) :
    (setSlot t i v).root = t.root := rfl

theorem setSlot_size (t : RBTree) (i : Nat) (v : Option RBNode) :
    (setSlot t i v).size = t.size := rfl

theorem setSlot_length (t : RBTree) (i : Nat) (v : Option RBNode) :
    (setSlot t i v).nodes.length = t.nodes.length := by
  simp [setSlot]

theorem getN_sizeTweak (t : RBTree) (s i : Nat) : getN { t with size := s } i = getN t i := rfl

theorem nextLargestParentFrom_sizeTweak (t : RBTree) (s : Nat) :
    ∀ f i, nextLargestParentFrom { t with size := s } f i = nextLargestParentFrom t f i := by
  intro f
  induction f with
  | zero => intro i; rfl
  | succ f ih =>
    intro i
    rw [nextLargestParentFrom, nextLargestParentFrom]
    show obind (getN t i) _ = obind (getN t i) _
    cases getN t i with
    | none => rfl
    | some nd =>
      simp only [obind_some_eq]
      cases nd.parent with
      | none => rfl
      | some p =>
        by_cases hl : nd.less
        · simp [hl]
        · simp [hl, ih p]

theorem getNextLargestParent_sizeTweak (t : RBTree) (s i : Nat) :
    getNextLargestParent { t with size := s } i = getNextLargestParent t i := by
  rw [getNextLargestParent, getNextLargestParent]
  exact nextLargestParentFrom_sizeTweak t s (fuelOf t) i

theorem getNextLargestChild_noright {t : RBTree} {i : Nat} {nd : RBNode}
    (hi : getN t i = some nd) (hnr : nd.right = none) :
    getNextLargestChild t i = some none := by
  unfold getNextLargestChild
  rw [hi, obind_some_eq, hnr]

/-- A hit of the public `find` loop is a hit of the private loop, reported
with `found = true` and `lessThan = true`. -/
theorem findFrom_eq_nearest (t : RBTree) (key : Nat) :
    ∀ f i n, findFrom t key f i = some (some n) →
      findNearestFrom t key f i = some (true, n, true) := by
  intro f
  induction f with
  | zero => intro i n h; exact absurd h (by simp [findFrom])
  | succ f ih =>
    intro i n h
    rw [findFrom] at h
    rw [findNearestFrom]
    cases hg : getN t i with
    | none => rw [hg] at h; exact absurd h (by simp [obind])
    | some nd =>
      rw [hg] at h
      rw [obind_some_eq] at h
      rw [obind_some_eq]
      by_cases h1 : key < nd.key
      · simp only [if_pos h1] at h ⊢
        revert h
        cases nd.left with
        | none => intro h; exact absurd h (by simp)
        | some j => intro h; exact ih j n h
      · by_cases h2 : nd.key < key
        · simp only [if_neg h1, if_pos h2] at h ⊢
          revert h
          cases nd.right with
          | none => intro h; exact absurd h (by simp)
          | some j => intro h; exact ih j n h
        · simp only [if_neg h1, if_neg h2] at h ⊢
          cases h
          rfl

/-- The node the `find` loop stops on holds exactly the searched key. -/
theorem findFrom_key (t : RBTree) (key : Nat) :
    ∀ f i n, findFrom t key f i = some (some n) → rKey t n = some key := by
  intro f
  induction f with
  | zero => intro i n h; exact absurd h (by simp [findFrom])
  | succ f ih =>
    intro i n h
    rw [findFrom] at h
    cases hg : getN t i with
    | none => rw [hg] at h; exact absurd h (by simp [obind])
    | some nd =>
      rw [hg] at h
      rw [obind_some_eq] at h
      by_cases h1 : key < nd.key
      · simp only [if_pos h1] at h
        revert h
        cases nd.left with
        | none => intro h; exact absurd h (by simp)
        | some j => intro h; exact ih j n h
      · by_cases h2 : nd.key < key
        · simp only [if_neg h1, if_pos h2] at h
          revert h
          cases nd.right with
          | none => intro h; exact absurd h (by simp)
          | some j => intro h; exact ih j n h
        · simp only [if_neg h1, if_neg h2] at h
          cases h
          have hk : nd.key = key := Nat.le_antisymm (Nat.not_lt.mp h1) (Nat.not_lt.mp h2)
          simp [rKey, hg, hk]

/-- C2: starting from an empty tree, inserting 10, 20, 5, 15, 25, 3, 8 in
that order yields a tree whose in-order traversal is
`[3, 5, 8, 10, 15, 20, 25]`, whose root is black, whose size is 7 and which
passes `validate`, and in which `find 10` returns a handle; removing 10 then
reports success, leaves size 6, in-order `[3, 5, 8, 15, 20, 25]`, passes
`validate`, and `find 10` returns no handle. -/
theorem add_remove_scenario :
    ((runOps emptyTree ([10, 20, 5, 15, 25, 3, 8].map Op.addK)).bind fun t =>
      (inorderKeys t).bind fun ks =>
      (t.root).bind fun r =>
      (rRed t r).bind fun rootRed =>
      (find t 10).bind fun h10 =>
      (removeKey t 10).bind fun tr =>
      (inorderKeys tr.1).bind fun ks2 =>
      (find tr.1 10).bind fun h10b =>
      some (ks, rootRed, t.size, validate t, h10.isSome,
            tr.2.1, ks2, tr.1.size, validate tr.1, h10b))
    = some ([3, 5, 8, 10, 15, 20, 25], false, 7, some true, true,
            true, [3, 5, 8, 15, 20, 25], 6, some true, none) := by
  rfl

/-- C4: when the key is already present (the `find` loop returns a handle
`n`), `add` returns that very node with `inserted = false` and the tree
value — structure, heap and size — is returned unchanged; the node found
holds the searched key. -/
theorem addKey_existing (t : RBTree) (key n : Nat) (h : find t key = some (some n)) :
    addKey t key = some (t, n, false) ∧ rKey t n = some key := by
  unfold find at h
  cases hr : t.root with
  | none => rw [hr] at h; exact absurd h (by simp)
  | some r =>
    rw [hr] at h
    have h2 : findFrom t key (fuelOf t) r = some (some n) := h
    refine ⟨?_, findFrom_key t key _ r n h2⟩
    have h3 := findFrom_eq_nearest t key (fuelOf t) r n h2
    unfold addKey
    rw [hr]
    show obind (findNearestFrom t key (fuelOf t) r) _ = _
    rw [h3]
    rfl

theorem addKey_existing_witness :
    find (⟨[some (newNode 5 none false)], some 0, 1⟩ : RBTree) 5 = some (some 0) ∧
      (addKey (⟨[some (newNode 5 none false)], some 0, 1⟩ : RBTree) 5 =
        some ((⟨[some (newNode 5 none false)], some 0, 1⟩ : RBTree), 0, false) ∧
       rKey (⟨[some (newNode 5 none false)], some 0, 1⟩ : RBTree) 0 = some 5) :=
  ⟨by decide, addKey_existing _ 5 0 (by decide)⟩

/-- C5: when the key is absent (the `find` loop returns null), `remove`
reports false and the tree value — structure, heap and size — is returned
unchanged, with a null `next` out-parameter. -/
theorem removeKey_absent (t : RBTree) (key : Nat) (h : find t key = some none) :
    removeKey t key = some (t, false, none) := by
  unfold removeKey
  rw [h]
  rfl

theorem removeKey_absent_witness :
    find (⟨[some (newNode 5 none false)], some 0, 1⟩ : RBTree) 3 = some none ∧
      removeKey (⟨[some (newNode 5 none false)], some 0, 1⟩ : RBTree) 3 =
        some ((⟨[some (newNode 5 none false)], some 0, 1⟩ : RBTree), false, none) :=
  ⟨by decide, removeKey_absent _ 3 (by decide)⟩

/-- C7 fails on the code: seven plain inserts reach a tree whose root has a
RED left child and a non-null right child whose left child is null — the
situation invariant 3 forbids — yet `validate` accepts the tree: it checks
the red left child's own two children instead of the right child's left
child. -/
theorem validate_accepts_missing_grandchild :
    ((runOps emptyTree ([7, 2, 6, 3, 4, 5, 1].map Op.addK)).bind fun t =>
      (t.root).bind fun r =>
      (getN t r).bind fun rnd =>
      rnd.left.bind fun l =>
      (getN t l).bind fun lnd =>
      rnd.right.bind fun rr =>
      (getN t rr).bind fun rrnd =>
      some (lnd.red, rrnd.left, validate t))
    = some (true, none, some true) := by
  rfl

/-- C8 fails on the code: on a heap whose node 1 is RED with a left child,
`remove` does not promote the left child — it asserts that a red node being
physically deleted has no left child, so the call aborts (and `remove(key)`
on that node aborts the same way). -/
theorem removeNode_red_with_left_aborts :
    (rRed (⟨[some ⟨some 1, none, none, false, false, 20⟩,
             some ⟨some 2, none, some 0, true, true, 10⟩,
             some ⟨none, none, some 1, false, true, 5⟩], some 0, 3⟩ : RBTree) 1
        = some true) ∧
    (rLeft (⟨[some ⟨some 1, none, none, false, false, 20⟩,
              some ⟨some 2, none, some 0, true, true, 10⟩,
              some ⟨none, none, some 1, false, true, 5⟩], some 0, 3⟩ : RBTree) 1
        = some (some 2)) ∧
    (removeNode (⟨[some ⟨some 1, none, none, false, false, 20⟩,
                   some ⟨some 2, none, some 0, true, true, 10⟩,
                   some ⟨none, none, some 1, false, true, 5⟩], some 0, 3⟩ : RBTree) 1
        = none) ∧
    (removeKey (⟨[some ⟨some 1, none, none, false, false, 20⟩,
                  some ⟨some 2, none, some 0, true, true, 10⟩,
                  some ⟨none, none, some 1, false, true, 5⟩], some 0, 3⟩ : RBTree) 10
        = none) := by
  refine ⟨rfl, rfl, rfl, rfl⟩

/-- C9 fails on the code: in the concrete seven-key tree, removing 10 (a
node with a right subtree) sets the `next` out-parameter to the node holding
20, although the smallest remaining key greater than 10 is 15 — after the
successor swap, `next` is recomputed from the freed position and lands one
element too far. -/
theorem removeKey_next_not_successor :
    ((runOps emptyTree ([10, 20, 5, 15, 25, 3, 8].map Op.addK)).bind fun t =>
      (removeKey t 10).bind fun tr =>
      (tr.2.2).bind fun j =>
      (rKey tr.1 j).bind fun kj =>
      (inorderKeys tr.1).bind fun ks =>
      some (kj, ks))
    = some (20, [3, 5, 8, 15, 20, 25]) := by
  rfl

/-- C8 amended: the O(1) promote case of `remove` belongs to a BLACK node
with a RED left child (not to a RED node): when the node physically deleted
is black, has no right child, and its left child is red, `remove` writes the
left child into the parent's slot on the deleted node's side, recolours it
BLACK, frees the node, decrements `size`, and touches no other slot — no
upward rebalancing walk runs. -/
theorem removeNode_promotes_black_leaf
    (t : RBTree) (i p l : Nat) (nd pnd lnd : RBNode) (nxt : Option Nat)
    (hi : getN t i = some nd) (hnr : nd.right = none) (hp : nd.parent = some p)
    (hblack : nd.red = false) (hl : nd.left = some l)
    (hpnd : getN t p = some pnd) (hlnd : getN t l = some lnd)
    (hlred : lnd.red = true) (hll : lnd.left = none)
    (hil : i ≠ l) (hip : i ≠ p) (hlp : l ≠ p)
    (hnx : (if nd.less then some (some p) else getNextLargestParent t p) = some nxt) :
    ∃ t' : RBTree, removeNode t i = some (t', nxt) ∧
      getN t' l = some { lnd with parent := some p, less := nd.less, red := false } ∧
      getN t' p = some (if nd.less then { pnd with left := some l }
                        else { pnd with right := some l }) ∧
      getN t' i = none ∧ t'.root = t.root ∧ t'.size = t.size - 1 ∧
      ∀ j, j ≠ i → j ≠ l → j ≠ p → getN t' j = getN t j := by
  have hlenl : l < t.nodes.length := getN_some_lt hlnd
  have hlenp : p < t.nodes.length := getN_some_lt hpnd
  have hli : l ≠ i := Ne.symm hil
  have hpi : p ≠ i := Ne.symm hip
  have hpl : p ≠ l := Ne.symm hlp
  by_cases hless : nd.less = true
  · simp only [hless, if_true] at hnx
    injection hnx with hnx2
    subst hnx2
    refine ⟨freeSlot (setSlot (setSlot (setSlot (setSlot { t with size := t.size - 1 } l
        (some { lnd with parent := some p })) l
        (some { lnd with parent := some p, less := nd.less })) p
        (some { pnd with left := some l })) l
        (some { lnd with parent := some p, less := nd.less, red := false })) i,
      ?_, ?_, ?_, ?_, ?_, ?_, ?_⟩
    · simp only [removeNode,
        getNextLargestChild_noright (show getN { t with size := t.size - 1 } i = some nd from hi) hnr,
        obind_some_eq, getN_sizeTweak, hi, hp, hblack, hless, hl, hlnd, hlred, hll,
        isRedPtr, setChild, attachIf, nodeSetChild, wParent, wLess, wLeft, wRight, wRed, updN,
        ocheck_true_eq, Option.isNone_none, Bool.not_false, if_true, Option.map_some',
        ne_eq, not_false_eq_true, hpnd,
        getN_setSlot_self, getN_setSlot_ne, setSlot_length, hlenl, hlenp, hli, hpi, hpl, hlp]
    · rw [freeSlot, getN_setSlot_ne _ hli, getN_setSlot_self (by simp [setSlot_length, hlenl])]
    · simp only [hless, eq_self_iff_true, if_true, freeSlot]
      rw [getN_setSlot_ne _ hpi, getN_setSlot_ne _ hpl,
        getN_setSlot_self (by simp [setSlot_length, hlenp])]
    · rw [freeSlot, getN_setSlot_self (by simp [setSlot_length]; exact getN_some_lt hi)]
    · rfl
    · rfl
    · intro j hji hjl hjp
      rw [freeSlot, getN_setSlot_ne _ hji, getN_setSlot_ne _ hjl, getN_setSlot_ne _ hjp,
        getN_setSlot_ne _ hjl, getN_setSlot_ne _ hjl, getN_sizeTweak]
  · have hless2 : nd.less = false := Bool.not_eq_true _ ▸ Bool.of_not_eq_true hless
    simp only [hless2, Bool.false_eq_true, if_false] at hnx
    rw [← getNextLargestParent_sizeTweak t (t.size - 1) p] at hnx
    refine ⟨freeSlot (setSlot (setSlot (setSlot (setSlot { t with size := t.size - 1 } l
        (some { lnd with parent := some p })) l
        (some { lnd with parent := some p, less := nd.less })) p
        (some { pnd with right := some l })) l
        (some { lnd with parent := some p, less := nd.less, red := false })) i,
      ?_, ?_, ?_, ?_, ?_, ?_, ?_⟩
    · simp only [removeNode,
        getNextLargestChild_noright (show getN { t with size := t.size - 1 } i = some nd from hi) hnr,
        obind_some_eq, getN_sizeTweak, hi, hp, hblack, hless2, hl, hlnd, hlred, hll, hnx,
        isRedPtr, setChild, attachIf, nodeSetChild, wParent, wLess, wLeft, wRight, wRed, updN,
        ocheck_true_eq, Option.isNone_none, Bool.not_false, if_true, if_false, Option.map_some',
        Bool.false_eq_true, ne_eq, not_false_eq_true, hpnd,
        getN_setSlot_self, getN_setSlot_ne, setSlot_length, hlenl, hlenp, hli, hpi, hpl, hlp]
    · rw [freeSlot, getN_setSlot_ne _ hli, getN_setSlot_self (by simp [setSlot_length, hlenl])]
    · simp only [hless2, Bool.false_eq_true, if_false, freeSlot]
      rw [getN_setSlot_ne _ hpi, getN_setSlot_ne _ hpl,
        getN_setSlot_self (by simp [setSlot_length, hlenp])]
    · rw [freeSlot, getN_setSlot_self (by simp [setSlot_length]; exact getN_some_lt hi)]
    · rfl
    · rfl
    · intro j hji hjl hjp
      rw [freeSlot, getN_setSlot_ne _ hji, getN_setSlot_ne _ hjl, getN_setSlot_ne _ hjp,
        getN_setSlot_ne _ hjl, getN_setSlot_ne _ hjl, getN_sizeTweak]

theorem removeNode_promotes_black_leaf_witness :
    getN promoteCase 1 = some ⟨some 2, none, some 0, false, true, 10⟩ ∧
    (∃ t' : RBTree, removeNode promoteCase 1 = some (t', some 0) ∧
      getN t' 2 = some ⟨none, none, some 0, false, true, 5⟩ ∧
      getN t' 0 = some ⟨some 2, some 3, none, false, false, 20⟩ ∧
      getN t' 1 = none ∧ t'.root = promoteCase.root ∧ t'.size = promoteCase.size - 1 ∧
      ∀ j, j ≠ 1 → j ≠ 2 → j ≠ 0 → getN t' j = getN promoteCase j) :=
  ⟨rfl,
   removeNode_promotes_black_leaf promoteCase 1 0 2
     ⟨some 2, none, some 0, false, true, 10⟩
     ⟨some 1, some 3, none, false, false, 20⟩
     ⟨none, none, some 1, true, true, 5⟩
     (some 0) rfl rfl rfl rfl rfl rfl rfl rfl rfl
     (by decide) (by decide) (by decide) rfl⟩

/-- Every node the `validate` main loop visits passes its per-node check. -/
theorem validateLoop_checks (t : RBTree) :
    ∀ f node next, validateLoop t f node next = some true →
      ∃ vs, chainList t f node next = some vs ∧ ∀ j ∈ vs, checkNode t j = some true := by
  intro f
  induction f with
  | zero => intro node next h; exact absurd h (by simp [validateLoop])
  | succ f ih =>
    intro node next h
    rw [validateLoop] at h
    rw [chainList]
    by_cases he : node = next
    · rw [if_pos he] at h ⊢
      exact ⟨[], rfl, by simp⟩
    · rw [if_neg he] at h ⊢
      obtain ⟨c, hc, h2⟩ := obind_eq_some h
      cases c with
      | false => exact absurd h2 (by simp [ocheck])
      | true =>
        simp only [Bool.not_true, Bool.false_eq_true, if_false] at h2
        obtain ⟨nx, hnx, h3⟩ := obind_eq_some h2
        obtain ⟨vs, hvs, hall⟩ := ih next nx h3
        refine ⟨node :: vs, ?_, ?_⟩
        · rw [hnx, obind_some_eq, hvs, obind_some_eq]
        · intro j hj
          rcases List.mem_cons.mp hj with hj1 | hj2
          · exact hj1 ▸ hc
          · exact hall j hj2

/-- C7 amended: `validate` does not examine the right child's left child.
For every tree it accepts, what holds at each node its traversal visits is
that a RED left child standing next to a non-null right child has both its
own children; the last node of the traversal is not checked at all, and the
counterexample shows a reachable accepted tree whose right child has a null
left child. -/
theorem validate_visited_redleft (t : RBTree) (h : validate t = some true) :
    ∃ vs, validateVisited t = some vs ∧
      ∀ j ∈ vs, ∀ nd l lnd rr, getN t j = some nd → nd.left = some l →
        getN t l = some lnd → lnd.red = true → nd.right = some rr →
        lnd.left ≠ none ∧ lnd.right ≠ none := by
  have main : ∀ vs : List Nat, (∀ j ∈ vs, checkNode t j = some true) →
      ∀ j ∈ vs, ∀ nd l lnd rr, getN t j = some nd → nd.left = some l →
        getN t l = some lnd → lnd.red = true → nd.right = some rr →
        lnd.left ≠ none ∧ lnd.right ≠ none := by
    intro vs hall j hj nd l lnd rr hnd hl hlnd hlred hrr
    have hc := hall j hj
    rw [checkNode, hnd, obind_some_eq] at hc
    obtain ⟨r1, hr1, hc2⟩ := obind_eq_some hc
    cases r1 with
    | false => exact absurd hc2 (by simp)
    | true =>
      simp only [Bool.not_true, Bool.false_eq_true, if_false] at hc2
      obtain ⟨r2, hr2, hc3⟩ := obind_eq_some hc2
      cases r2 with
      | false => exact absurd hc3 (by simp)
      | true =>
        simp only [Bool.not_true, Bool.false_eq_true, if_false] at hc3
        simp only [checkShape, hl, hlnd, obind_some_eq, hlred, hrr,
          eq_self_iff_true, if_true] at hc3
        by_cases hn1 : lnd.left.isNone = true
        · rw [if_pos hn1, obind_some_eq] at hc3
          exact absurd hc3 (by simp)
        · rw [if_neg hn1] at hc3
          by_cases hn2 : lnd.right.isNone = true
          · rw [if_pos hn2, obind_some_eq] at hc3
            exact absurd hc3 (by simp)
          · exact ⟨by simpa [Option.isNone_iff_eq_none] using hn1,
              by simpa [Option.isNone_iff_eq_none] using hn2⟩
  rw [validate] at h
  rw [validateVisited]
  cases hr : t.root with
  | none => exact ⟨[], rfl, by simp⟩
  | some r =>
    rw [hr] at h
    obtain ⟨rnd, hrnd, h2⟩ := obind_eq_some h
    by_cases hred : rnd.red = true
    · rw [if_pos hred] at h2; exact absurd h2 (by simp)
    · rw [if_neg hred] at h2
      obtain ⟨p0, hp0, h3⟩ := obind_eq_some h2
      obtain ⟨m, hm, h4⟩ := obind_eq_some h3
      obtain ⟨n0, hn0, h5⟩ := obind_eq_some h4
      obtain ⟨vs, hvs, hall⟩ := validateLoop_checks t (fuelOf t) m n0 h5
      refine ⟨vs, ?_, main vs hall⟩
      show (obind (getPrevious t r) fun p0 =>
          obind (minLoop t (fuelOf t) r p0) fun m =>
          obind (getNext t m) fun n0 => chainList t (fuelOf t) m n0) = some vs
      rw [hp0, obind_some_eq, hm, obind_some_eq, hn0, obind_some_eq]
      exact hvs

theorem validate_visited_redleft_witness :
    validate validateGapTree = some true ∧
    (∃ vs, validateVisited validateGapTree = some vs ∧
      ∀ j ∈ vs, ∀ nd l lnd rr, getN validateGapTree j = some nd → nd.left = some l →
        getN validateGapTree l = some lnd → lnd.red = true → nd.right = some rr →
        lnd.left ≠ none ∧ lnd.right ≠ none) :=
  ⟨rfl, validate_visited_redleft validateGapTree rfl⟩

theorem structOk_node {t : RBTree} {i : Nat} {l r : Shape} {pinfo : Option (Nat × Bool)}
    (h : structOk t (Shape.node i l r) pinfo = true) :
    ∃ nd, getN t i = some nd ∧ nd.parent = Option.map Prod.fst pinfo ∧
      (∀ pb, pinfo = some pb → nd.less = pb.2) ∧
      nd.left = l.rootId ∧ nd.right = r.rootId ∧
      structOk t l (some (i, true)) = true ∧ structOk t r (some (i, false)) = true := by
  rw [structOk] at h
  cases hg : getN t i with
  | none => rw [hg] at h; exact absurd h (by simp)
  | some nd =>
    rw [hg] at h
    simp only [Bool.and_eq_true, decide_eq_true_eq] at h
    obtain ⟨⟨⟨⟨⟨h1, h2⟩, h3⟩, h4⟩, h5⟩, h6⟩ := h
    refine ⟨nd, rfl, h1, ?_, h3, h4, h5, h6⟩
    intro pb hpb
    rw [hpb] at h2
    simpa using h2

theorem nextLargestParentFrom_mono (t : RBTree) :
    ∀ f i v, nextLargestParentFrom t f i = some v →
      nextLargestParentFrom t (f + 1) i = some v := by
  intro f
  induction f with
  | zero => intro i v h; exact absurd h (by simp [nextLargestParentFrom])
  | succ f ih =>
    intro i v h
    rw [nextLargestParentFrom] at h
    rw [nextLargestParentFrom]
    cases hg : getN t i with
    | none => rw [hg] at h; exact absurd h (by simp [obind])
    | some nd =>
      rw [hg] at h
      rw [obind_some_eq] at h ⊢
      revert h
      cases nd.parent with
      | none => intro h; exact h
      | some p =>
        intro h
        by_cases hl : nd.less = true
        · simpa [hl] using h
        · simp only [hl, Bool.false_eq_true, if_false] at h ⊢
          exact ih p v h

theorem climbOk_step {t : RBTree} {i : Nat} {nd : RBNode} {pinfo : Option (Nat × Bool)}
    {ex : Option Nat} {d : Nat}
    (hnd : getN t i = some nd) (hpar : nd.parent = Option.map Prod.fst pinfo)
    (hless : ∀ pb, pinfo = some pb → nd.less = pb.2)
    (hex : ExitOk t pinfo ex d) : ClimbOk t i ex (d + 1) := by
  constructor
  · intro self f hf
    obtain ⟨f', rfl⟩ : ∃ f'', f = f'' + 1 := ⟨f - 1, by omega⟩
    rw [getNextUp, hnd, obind_some_eq]
    match pinfo, hex with
    | none, hex =>
      rw [ExitOk] at hex
      rw [hpar]
      simp [hex]
    | some (par, true), hex =>
      rw [ExitOk] at hex
      rw [hpar]
      simp only [Option.map_some']
      rw [hless (par, true) rfl]
      simp [hex]
    | some (par, false), hex =>
      rw [ExitOk] at hex
      rw [hpar]
      simp only [Option.map_some']
      rw [hless (par, false) rfl]
      simp only [Bool.false_eq_true, if_false]
      exact hex.1 self f' (by omega)
  · intro f hf
    obtain ⟨f', rfl⟩ : ∃ f'', f = f'' + 1 := ⟨f - 1, by omega⟩
    rw [nextLargestParentFrom, hnd, obind_some_eq]
    match pinfo, hex with
    | none, hex =>
      rw [ExitOk] at hex
      rw [hpar]
      simp [hex]
    | some (par, true), hex =>
      rw [ExitOk] at hex
      rw [hpar]
      simp only [Option.map_some']
      rw [hless (par, true) rfl]
      simp [hex]
    | some (par, false), hex =>
      rw [ExitOk] at hex
      rw [hpar]
      simp only [Option.map_some']
      rw [hless (par, false) rfl]
      simp only [Bool.false_eq_true, if_false]
      exact hex.2 f' (by omega)

end RBT
